import Mathlib

/-!
A verification development for the message-execution core of the `ref-fvm`
repository.  Two source files are embedded:

* `fvm/src/call_manager.rs` — the `CallManager` that owns the call stack of a
  top-level message: address resolution, account-actor creation, gas charging,
  balance transfer, and the presence-slot (take/restore) protocol around
  sandboxed code execution.

* `actors/miner/src/sector_map.rs` — the per-deadline / per-partition sector
  bitfield bookkeeping (`DeadlineSectorMap`, `PartitionSectorMap`).

Collaborators of the call manager whose code lives outside the embedded
sources (the gas tracker, the state tree mutators, the price list, the
serialization codec, the kernel block registry and the sandbox runtime) are
modelled from the specification, at the interface the call manager uses; each
such definition carries a doc comment saying so.  Machine integers (i64 gas
counters) are modelled as `Int`; token amounts (unsigned big integers) as
`Nat`; byte strings as `List Nat`.
-/

namespace FVM

/-! ## Association lists

The state tree's actor map and address index, the module table and the sector
maps are all keyed finite maps; we embed them as association lists with
in-place update (the update of an existing key keeps its position, a fresh key
is appended). -/

/-- Lookup of a key in an association list. -/
def alookup {κ α : Type} [DecidableEq κ] : List (κ × α) → κ → Option α
  | [], _ => none
  | (k, v) :: rest, i => if k = i then some v else alookup rest i

/-- Update of a key in an association list: replaces the value of an existing
key in place, appends a fresh key at the end. -/
def aupdate {κ α : Type} [DecidableEq κ] : List (κ × α) → κ → α → List (κ × α)
  | [], k, v => [(k, v)]
  | (k', v') :: rest, k, v =>
    if k' = k then (k, v) :: rest else (k', v') :: aupdate rest k v

theorem alookup_aupdate {κ α : Type} [DecidableEq κ] (l : List (κ × α)) (k i : κ) (v : α) :
    alookup (aupdate l k v) i = if k = i then some v else alookup l i := by
  induction l with
  | nil => simp [alookup, aupdate]
  | cons hd tl ih =>
    obtain ⟨k', v'⟩ := hd
    by_cases h1 : k' = k
    · subst h1
      by_cases h2 : k' = i <;> simp [alookup, aupdate, h2]
    · by_cases h2 : k' = i
      · subst h2
        have : ¬ k = k' := fun h => h1 h.symm
        simp [alookup, aupdate, h1, this]
      · simp [alookup, aupdate, h1, h2, ih]

theorem alookup_aupdate_self {κ α : Type} [DecidableEq κ] (l : List (κ × α)) (k : κ) (v : α) :
    alookup (aupdate l k v) k = some v := by
  simp [alookup_aupdate]

theorem alookup_aupdate_other {κ α : Type} [DecidableEq κ] (l : List (κ × α)) (k i : κ) (v : α)
    (h : k ≠ i) : alookup (aupdate l k v) i = alookup l i := by
  simp [alookup_aupdate, h]

/-! ## Errors

The recoverable error taxonomy of the engine (spec §7), plus:
`FuelExhausted`, an artifact of the shallow embedding marking recursion
deeper than the fuel bound (never observed at any sufficient finite fuel), and
`Poisoned`, standing in for the process-fatal "call manager is poisoned"
assertion that fires when the manager is used while its presence slot is
empty (in Rust this is a panic, not a value; the embedding has to return
something). -/

inductive ExecError where
  | OutOfGas
  | IllegalArgument
  | InvalidReceiver
  | InsufficientFunds
  | Serialization
  | InvalidHandle
  | SysError
  | FuelExhausted
  | Poisoned
deriving DecidableEq, Repr

abbrev ActorID := Nat
abbrev MethodNum := Nat

/-- Token amounts are unsigned big integers in the source. -/
abbrev TokenAmount := Nat

/-- The reserved method number of a pure value transfer (`fvm_shared::METHOD_SEND`). -/
def METHOD_SEND : MethodNum := 0

/-- The constructor method number (`fvm_shared::METHOD_CONSTRUCTOR`). -/
def METHOD_CONSTRUCTOR : MethodNum := 1

/-! ## Addresses -/

/-- An address: a numeric actor id, a public-key class address (Secp256k1 or
BLS), or some other protocol (e.g. the `Actor` protocol), abstracted by its
protocol number and payload. -/
inductive Address where
  | id (n : ActorID)
  | secp (key : Nat)
  | bls (key : Nat)
  | other (proto : Nat) (payload : Nat)
deriving DecidableEq, Repr

/-- Whether the address is the designated zero/placeholder BLS key address
(`Address::is_bls_zero_address`); the zero key is modelled as key `0`. -/
def Address.is_bls_zero_address : Address → Bool
  | .bls k => k == 0
  | _ => false

/-! ## Gas tracker

Modelled from the spec: the `GasTracker` lives in the crate gas module, which
is not among the embedded sources; per spec §3/§4.1 it is
`{limit: i64, used: i64}` and `charge(amount)` fails with `OutOfGas` when
`used + amount > limit`, leaving `used` unchanged; on success
`used += amount`, and gas is never refunded mid-execution. -/
structure GasTracker where
  gas_limit : Int
  gas_used : Int
deriving DecidableEq, Repr

/-- Modelled from the spec: `GasTracker::new(limit, used)`. -/
def GasTracker.new (limit used : Int) : GasTracker := ⟨limit, used⟩

/-- Modelled from the spec: `GasTracker::charge_gas` (spec §4.1). -/
def GasTracker.charge_gas (g : GasTracker) (amount : Int) : Except ExecError GasTracker :=
  if g.gas_limit < g.gas_used + amount then .error .OutOfGas
  else .ok { g with gas_used := g.gas_used + amount }

/-- Modelled from the spec: `available() = limit - used` (spec §4.1). -/
def GasTracker.gas_available (g : GasTracker) : Int := g.gas_limit - g.gas_used

/-- One charge attempt against a tracker, keeping the tracker unchanged when
the charge fails (the failed amount is not applied). -/
def GasTracker.charge_step (g : GasTracker) (a : Int) : GasTracker :=
  match g.charge_gas a with
  | .ok g' => g'
  | .error _ => g

/-- A sequence of charge attempts against one tracker. -/
def GasTracker.charge_seq (g : GasTracker) (amounts : List Int) : GasTracker :=
  amounts.foldl GasTracker.charge_step g

/-! ## State tree and machine -/

/-- One actor-state entry (`ActorState`): a code reference (content id,
modelled as `Nat`), a state root, a sequence number and a balance. -/
structure ActorState where
  code : Nat
  state_root : Nat
  sequence : Nat
  balance : TokenAmount
deriving DecidableEq, Repr

/-- Modelled from the spec: the state tree (external collaborator, spec §6) —
an actor-id → actor-state map, an address index used by `lookup_id`, and the
next free actor id used by actor creation. -/
structure StateTree where
  actors : List (ActorID × ActorState)
  index : List (Address × ActorID)
  next_id : ActorID
deriving DecidableEq, Repr

/-- Modelled from the spec: `lookup_id(address) -> Option<ActorID>` — a
numeric address is already resolved; any other address is looked up in the
index (spec §4.2 step 1). -/
def StateTree.lookup_id (st : StateTree) (a : Address) : Option ActorID :=
  match a with
  | .id n => some n
  | _ => alookup st.index a

/-- Modelled from the spec: `get_actor(id) -> Option<ActorState>` (spec §6);
the call manager calls it as `get_actor_id`. -/
def StateTree.get_actor_id (st : StateTree) (i : ActorID) : Option ActorState :=
  alookup st.actors i

/-- Modelled from the spec: the state-tree mutator writing one actor state. -/
def StateTree.set_actor (st : StateTree) (i : ActorID) (a : ActorState) : StateTree :=
  { st with actors := aupdate st.actors i a }

/-- Modelled from the spec: the state-tree actor-creation mutator — allocate
the next id, store the actor state under it, and register the address in the
index so that later resolutions find it (spec §4.2 step 2). -/
def StateTree.create_actor (st : StateTree) (addr : Address) (a : ActorState) :
    ActorID × StateTree :=
  (st.next_id,
   { actors := aupdate st.actors st.next_id a
     index := aupdate st.index addr st.next_id
     next_id := st.next_id + 1 })

/-- Modelled from the spec: the price list, an externally supplied pure cost
function (spec §6); costs are nonnegative, given as `Nat`. -/
structure PriceList where
  on_create_actor : Nat
  on_method_invocation : TokenAmount → MethodNum → Nat

/-- An opaque content-identified byte payload plus a codec tag — the only
data that crosses the sandbox boundary (spec §3). -/
structure Block where
  codec : Nat
  data : List Nat
deriving DecidableEq, Repr

/-- The DAG-CBOR codec tag (`DAG_CBOR = 0x71`). -/
def DAG_CBOR : Nat := 113

/-- Modelled from the spec: one step a sandboxed module can take through the
host-operation surface (spec §6): charge gas, issue a nested send, or create
a block.  The gas syscall takes an unsigned amount. -/
inductive ModuleAct where
  | chargeGas (amount : Nat)
  | sendMsg (dst : Address) (method : MethodNum) (params : List Nat) (value : TokenAmount)
  | createBlock (codec : Nat) (data : List Nat)
deriving DecidableEq, Repr

/-- Modelled from the spec: a compiled sandbox module, abstracted as the
sequence of host operations its entry point performs followed by the block
handle it returns.  A failing operation aborts the invocation with that
error. -/
structure ModuleCode where
  acts : List ModuleAct
  ret_block : Nat
deriving DecidableEq, Repr

/-- The `Machine`: shared mutable world state for one top-level execution —
the state tree, the price list and (modelled from the spec) the module table
the loader draws from, keyed by code reference. -/
structure Machine where
  state_tree : StateTree
  price_list : PriceList
  modules : List (Nat × ModuleCode)

/-- Modelled from the spec: `Machine::transfer` — an atomic balance transfer
that fails with `InsufficientFunds` when the sender balance is below `value`
and moves the tokens otherwise, leaving everything else unchanged
(spec §4.3 step 4, §8). -/
def Machine.transfer (m : Machine) (frm dst : ActorID) (value : TokenAmount) :
    Except ExecError Machine :=
  match m.state_tree.get_actor_id frm with
  | none => .error .SysError
  | some f =>
    if f.balance < value then .error .InsufficientFunds
    else
      let st1 := m.state_tree.set_actor frm { f with balance := f.balance - value }
      match st1.get_actor_id dst with
      | none => .error .SysError
      | some t =>
        .ok { m with state_tree := st1.set_actor dst { t with balance := t.balance + value } }

/-! ## Account actor constants -/

/-- Modelled from the spec: the code reference of the account-actor
archetype (`account_actor::ZERO_STATE.code`). -/
def ACCOUNT_ACTOR_CODE_ID : Nat := 1

/-- Modelled from the spec: `account_actor::SYSTEM_ACTOR_ID`, the sender of
constructor invocations. -/
def SYSTEM_ACTOR_ID : ActorID := 0

/-- Modelled from the spec: `account_actor::ZERO_STATE`, the initial state of
a freshly created account actor. -/
def ZERO_STATE : ActorState :=
  { code := ACCOUNT_ACTOR_CODE_ID, state_root := 0, sequence := 0, balance := 0 }

/-- Modelled from the spec: `RawBytes::serialize(&addr)` — the serialization
codec is an external collaborator; an injective encoding of addresses stands
in for it (address serialization does not fail). -/
def serializeAddress : Address → List Nat
  | .id n => [0, n]
  | .secp k => [1, k]
  | .bls k => [3, k]
  | .other p x => [4, p, x]

/-! ## The call manager -/

/-- The inner call manager (`InnerCallManager`, lines 41-48): the machine and
the gas tracker.  The `invocations` field is ghost instrumentation, not
program state: it records, in order, every `(from, to, method)` triple whose
code execution stage is reached (a kernel is built and the module entry point
invoked), so that "the constructor runs exactly once" becomes a statement
about the final state. -/
structure InnerCallManager where
  machine : Machine
  gas_tracker : GasTracker
  invocations : List (ActorID × ActorID × MethodNum)

/-- Embedding of `CallManager::charge_gas` (lines 222-225): delegate to the
gas tracker; the manager is unchanged when the charge fails. -/
def InnerCallManager.charge_gas (cm : InnerCallManager) (amount : Nat) :
    Except ExecError InnerCallManager :=
  (cm.gas_tracker.charge_gas (amount : Int)).map fun gt => { cm with gas_tracker := gt }

/-- Modelled from the spec: the kernel state of one invocation — the call
manager the kernel holds by value for the duration of the sandboxed call, the
block registry scoped to this execution context, and the id of the actor
whose code is running (the sender of its nested sends). -/
structure KernelState where
  cm : InnerCallManager
  blocks : List Block
  self_id : ActorID

/-- Modelled from the spec: `block_create` of the kernel block registry —
register a block, returning its fresh handle. -/
def KernelState.block_create (k : KernelState) (codec : Nat) (data : List Nat) :
    Nat × KernelState :=
  (k.blocks.length, { k with blocks := k.blocks ++ [⟨codec, data⟩] })

/-- Modelled from the spec: `block_get` of the kernel block registry — read a
block by handle, returning its codec tag and bytes. -/
def KernelState.block_get (k : KernelState) (i : Nat) : Except ExecError (Nat × List Nat) :=
  match k.blocks[i]? with
  | some b => .ok (b.codec, b.data)
  | none => .error .InvalidHandle

/-- Modelled from the spec: the tail of the `map_mut` closure — reading the
entry point's result block back out of the kernel once the invocation has
finished: a failed invocation propagates its error; a successful one reads
the block handle the entry point returned (its codec is dropped after the
debug assertion that it is DAG-CBOR). -/
def invoke_result (p : Except ExecError Unit × KernelState) (ret_block : Nat) :
    Except ExecError (List Nat) × InnerCallManager :=
  match p with
  | (.error e, k2) => (.error e, k2.cm)
  | (.ok _, k2) =>
    match k2.block_get ret_block with
    | .error e => (.error e, k2.cm)
    | .ok (_, ret) => (.ok ret, k2.cm)

mutual

/-- Embedding of `CallManager::send` (lines 113-141): resolve the receiver —
an id found by `lookup_id` is used directly; an absent key address (BLS or
Secp256k1) triggers account-actor creation; any other unresolvable protocol
fails with `InvalidReceiver` — then perform the resolved send. -/
def InnerCallManager.send (fuel : Nat) (cm : InnerCallManager) (frm : ActorID)
    (dst : Address) (method : MethodNum) (params : List Nat) (value : TokenAmount) :
    Except ExecError (List Nat) × InnerCallManager :=
  match fuel with
  | 0 => (.error .FuelExhausted, cm)
  | fuel + 1 =>
    match cm.machine.state_tree.lookup_id dst with
    | some toId => InnerCallManager.send_resolved fuel cm frm toId method params value
    | none =>
      match dst with
      | .bls _ | .secp _ =>
        (match InnerCallManager.create_account_actor fuel cm dst with
         | (.error e, cm') => (.error e, cm')
         | (.ok toId, cm') =>
           InnerCallManager.send_resolved fuel cm' frm toId method params value)
      | _ => (.error .InvalidReceiver, cm)
termination_by structural fuel

/-- Embedding of `CallManager::create_account_actor` (lines 79-108): charge
the create-actor cost, reject the BLS zero address with `IllegalArgument`,
create the account actor in the state tree, then synchronously invoke its
constructor with the serialized address as sole parameter before returning
the new id. -/
def InnerCallManager.create_account_actor (fuel : Nat) (cm : InnerCallManager)
    (addr : Address) : Except ExecError ActorID × InnerCallManager :=
  match fuel with
  | 0 => (.error .FuelExhausted, cm)
  | fuel + 1 =>
    match cm.charge_gas cm.machine.price_list.on_create_actor with
    | .error e => (.error e, cm)
    | .ok cm1 =>
      if addr.is_bls_zero_address then (.error .IllegalArgument, cm1)
      else
        ((InnerCallManager.send_resolved fuel
            { cm1 with machine := { cm1.machine with
                state_tree := (cm1.machine.state_tree.create_actor addr ZERO_STATE).2 } }
            SYSTEM_ACTOR_ID (cm1.machine.state_tree.create_actor addr ZERO_STATE).1
            METHOD_CONSTRUCTOR (serializeAddress addr) 0).1.map
          (fun _ => (cm1.machine.state_tree.create_actor addr ZERO_STATE).1),
         (InnerCallManager.send_resolved fuel
            { cm1 with machine := { cm1.machine with
                state_tree := (cm1.machine.state_tree.create_actor addr ZERO_STATE).2 } }
            SYSTEM_ACTOR_ID (cm1.machine.state_tree.create_actor addr ZERO_STATE).1
            METHOD_CONSTRUCTOR (serializeAddress addr) 0).2)
termination_by structural fuel

/-- Embedding of `CallManager::send_resolved` (lines 144-210): look up the
receiver's actor state (`InvalidReceiver` if absent), charge the method
invocation gas, transfer the value if non-zero, return the empty result for
the reserved send method, and otherwise load the module, build a fresh kernel
(with the parameters stored as a DAG-CBOR block), run the entry point, and
read the returned block back out. -/
def InnerCallManager.send_resolved (fuel : Nat) (cm : InnerCallManager) (frm toId : ActorID)
    (method : MethodNum) (params : List Nat) (value : TokenAmount) :
    Except ExecError (List Nat) × InnerCallManager :=
  match fuel with
  | 0 => (.error .FuelExhausted, cm)
  | fuel + 1 =>
    match cm.machine.state_tree.get_actor_id toId with
    | none => (.error .InvalidReceiver, cm)
    | some state =>
      match cm.charge_gas (cm.machine.price_list.on_method_invocation value method) with
      | .error e => (.error e, cm)
      | .ok cm1 =>
        match (if value ≠ 0 then
                 (cm1.machine.transfer frm toId value).map
                   fun m => { cm1 with machine := m }
               else .ok cm1) with
        | .error e => (.error e, cm1)
        | .ok cm2 =>
          if method = METHOD_SEND then (.ok [], cm2)
          else
            match alookup cm2.machine.modules state.code with
            | none => (.error .InvalidReceiver, cm2)
            | some modl =>
              invoke_result
                (exec_acts fuel
                  (KernelState.block_create
                    ⟨{ cm2 with invocations := cm2.invocations ++ [(frm, toId, method)] },
                      [], toId⟩
                    DAG_CBOR params).2
                  modl.acts)
                modl.ret_block
termination_by structural fuel

/-- Modelled from the spec: execution of a sandboxed module entry point as the
interpretation of its host operations against the kernel; a failing operation
aborts the invocation with that error, keeping all state mutated so far
(nothing is rolled back at this layer). -/
def exec_acts (fuel : Nat) (k : KernelState) (acts : List ModuleAct) :
    Except ExecError Unit × KernelState :=
  match fuel with
  | 0 => (.error .FuelExhausted, k)
  | fuel + 1 =>
    match acts with
    | [] => (.ok (), k)
    | act :: rest =>
      match act with
      | .chargeGas amount =>
        (match k.cm.charge_gas amount with
         | .error e => (.error e, k)
         | .ok cm' => exec_acts fuel { k with cm := cm' } rest)
      | .sendMsg dst method params value =>
        (match InnerCallManager.send fuel k.cm k.self_id dst method params value with
         | (.error e, cm') => (.error e, { k with cm := cm' })
         | (.ok _, cm') => exec_acts fuel { k with cm := cm' } rest)
      | .createBlock codec data =>
        exec_acts fuel (KernelState.block_create k codec data).2 rest
termination_by structural fuel

end

/-- The presence slot (`CallManager`, line 37): either present (normal
operating state) or absent (moved out while a nested sandbox frame holds
exclusive access). -/
def CallManager := Option InnerCallManager

/-- Embedding of `CallManager::map_mut` (lines 237-242) under no-panic
semantics: `replace_with_and_return` moves the manager out, runs the closure
on it, and writes the manager the closure hands back into the slot. -/
def CallManager.map_mut {α : Type} (cm : CallManager)
    (f : CallManager → α × CallManager) : α × CallManager :=
  f cm

/-- Embedding of `CallManager::send_resolved` as seen through the presence
slot: a deref of an absent manager is the "call manager is poisoned"
process-fatal assertion (modelled as the `Poisoned` artifact, since a panic
is not a value); a present manager runs the resolved send, and the manager
the kernel hands back — `store.into_data().take()` inside `map_mut` — is
written back into the slot before the result is produced. -/
def CallManager.send_resolved (fuel : Nat) (cm : CallManager) (frm toId : ActorID)
    (method : MethodNum) (params : List Nat) (value : TokenAmount) :
    Except ExecError (List Nat) × CallManager :=
  match cm with
  | none => (.error .Poisoned, none)
  | some inner =>
    CallManager.map_mut (some inner) fun slot =>
      match slot with
      | none => (.error .Poisoned, none)
      | some inner' =>
        let r := InnerCallManager.send_resolved fuel inner' frm toId method params value
        (r.1, some r.2)

/-- Embedding of `CallManager::finish` (lines 212-219): return the
non-negative gas used together with ownership of the machine. -/
def InnerCallManager.finish (cm : InnerCallManager) : Int × Machine :=
  (max cm.gas_tracker.gas_used 0, cm.machine)

/-! ## Miner sector maps (`actors/miner/src/sector_map.rs`) -/

/-- Modelled from the spec: the miner policy constant `WPOST_PERIOD_DEADLINES`
is defined outside the embedded source file (in the miner policy module); its
Filecoin value is 48.  None of the properties proved below depend on the
value. -/
def WPOST_PERIOD_DEADLINES : Nat := 48

/-- A possibly-unvalidated sector bitfield (`UnvalidatedBitField` of the
bitfield crate, whose internals are outside the embedded sources): either an
already-validated bitfield (a set of sector numbers), a raw encoding that
validates successfully to a set, or a raw encoding that fails validation
(abstracted by a tag). -/
inductive UnvalidatedBitField where
  | validated (s : Finset Nat)
  | unvalidatedOk (s : Finset Nat)
  | invalid (blob : Nat)
deriving DecidableEq

/-- Modelled from the spec: `UnvalidatedBitField::validate`, decoding the
bitfield without changing the stored representation. -/
def UnvalidatedBitField.validate : UnvalidatedBitField → Except String (Finset Nat)
  | .validated s => .ok s
  | .unvalidatedOk s => .ok s
  | .invalid _ => .error "invalid bitfield"

/-- Modelled from the spec: `UnvalidatedBitField::validate_mut`, which on
success normalizes the stored representation to its validated form in place
and on failure leaves it untouched; returns the decoded set together with the
updated field. -/
def UnvalidatedBitField.validate_mut :
    UnvalidatedBitField → Except String (Finset Nat) × UnvalidatedBitField
  | .validated s => (.ok s, .validated s)
  | .unvalidatedOk s => (.ok s, .validated s)
  | .invalid b => (.error "invalid bitfield", .invalid b)

/-- Maps partitions to sector bitfields (`PartitionSectorMap`, line 116). -/
def PartitionSectorMap := List (Nat × UnvalidatedBitField)

instance : DecidableEq PartitionSectorMap := by
  unfold PartitionSectorMap; infer_instance

instance : Inhabited PartitionSectorMap := ⟨([] : List (Nat × UnvalidatedBitField))⟩

/-- Embedding of `PartitionSectorMap::add` (lines 132-152): merge the new
bitfield into the one already stored at the partition index by set union
(validating both, the old one in place), or store it as given at a fresh
index.  Errors return early with the map as mutated so far (`&mut self`
semantics). -/
def PartitionSectorMap.add (m : PartitionSectorMap) (partition_idx : Nat)
    (sector_numbers : UnvalidatedBitField) : Except String Unit × PartitionSectorMap :=
  match alookup m partition_idx with
  | some old =>
    match old.validate_mut with
    | (.error e, _) => (.error e, m)
    | (.ok oldSet, oldNorm) =>
      match sector_numbers.validate with
      | .error e => (.error e, aupdate m partition_idx oldNorm)
      | .ok newSet =>
        (.ok (), aupdate m partition_idx (.validated (oldSet ∪ newSet)))
  | none => (.ok (), aupdate m partition_idx sector_numbers)

/-- Embedding of `PartitionSectorMap::add_values` (lines 120-129): collect the
sector numbers into a validated bitfield and add it. -/
def PartitionSectorMap.add_values (m : PartitionSectorMap) (partition_idx : Nat)
    (sector_numbers : List Nat) : Except String Unit × PartitionSectorMap :=
  m.add partition_idx (.validated sector_numbers.toFinset)

/-- Embedding of `PartitionSectorMap::count` (lines 155-172): the number of
partitions and the total number of distinct sectors, validating every stored
bitfield. -/
def PartitionSectorMap.count (m : PartitionSectorMap) : Except String (Nat × Nat) :=
  match m.foldl (fun (acc : Except String Nat) p =>
      match acc with
      | .error e => .error e
      | .ok sectors =>
        match p.2.validate with
        | .error e => .error e
        | .ok s => .ok (sectors + s.card)) (.ok 0) with
  | .error e => .error e
  | .ok sectors => .ok (m.length, sectors)

/-- Embedding of `PartitionSectorMap::len`. -/
def PartitionSectorMap.len (m : PartitionSectorMap) : Nat := List.length m

/-- Maps deadlines to partition maps (`DeadlineSectorMap`, line 14). -/
def DeadlineSectorMap := List (Nat × PartitionSectorMap)

instance : DecidableEq DeadlineSectorMap := by
  unfold DeadlineSectorMap; infer_instance

instance : Inhabited DeadlineSectorMap := ⟨([] : List (Nat × PartitionSectorMap))⟩

/-- Embedding of `DeadlineSectorMap::add` (lines 69-83): reject a deadline
index at or above `WPOST_PERIOD_DEADLINES` before touching the map; otherwise
materialize a default (empty) partition map for the deadline on first use
(`entry().or_default()`) and delegate to the partition map's add, writing the
entry back whether or not the inner add succeeds. -/
def DeadlineSectorMap.add (m : DeadlineSectorMap) (deadline_idx partition_idx : Nat)
    (sector_numbers : UnvalidatedBitField) : Except String Unit × DeadlineSectorMap :=
  if deadline_idx ≥ WPOST_PERIOD_DEADLINES then (.error "invalid deadline", m)
  else
    let pm := (alookup m deadline_idx).getD ([] : List (Nat × UnvalidatedBitField))
    let res := pm.add partition_idx sector_numbers
    (res.1, aupdate m deadline_idx res.2)

/-- Embedding of `DeadlineSectorMap::add_values` (lines 86-97): collect the
sector numbers into a validated bitfield and add it. -/
def DeadlineSectorMap.add_values (m : DeadlineSectorMap) (deadline_idx partition_idx : Nat)
    (sector_numbers : List Nat) : Except String Unit × DeadlineSectorMap :=
  m.add deadline_idx partition_idx (.validated sector_numbers.toFinset)

/-! ## Evolution predicate and concrete sample objects -/

/-- `Evolves cm cm'` collects the facts preserved by every operation of the
send path: the gas limit never changes, the gas used never decreases (all
charge amounts are nonnegative and nothing refunds), and every address
resolution recorded in the state tree's index stays valid (index entries are
only ever added, for addresses unresolved at the moment of creation). -/
def Evolves (cm cm' : InnerCallManager) : Prop :=
  cm'.gas_tracker.gas_limit = cm.gas_tracker.gas_limit
  ∧ cm.gas_tracker.gas_used ≤ cm'.gas_tracker.gas_used
  ∧ ∀ a i, cm.machine.state_tree.lookup_id a = some i →
      cm'.machine.state_tree.lookup_id a = some i

/-- A concrete price list for witnesses: creation costs 10, every invocation
costs 1. -/
def samplePL : PriceList := { on_create_actor := 10, on_method_invocation := fun _ _ => 1 }

/-- A concrete state tree for witnesses: actor 100 runs code 7 with balance
50; actor 0 (the system actor) runs code 9 with balance 500; no key address
is indexed yet. -/
def sampleTree : StateTree :=
  { actors := [(100, { code := 7, state_root := 0, sequence := 0, balance := 50 }),
               (0, { code := 9, state_root := 0, sequence := 0, balance := 500 })]
    index := []
    next_id := 200 }

/-- A concrete module table for witnesses: code 7 creates one DAG-CBOR block
`[9]` and returns it (handle 1, after the parameter block); the account actor
code performs nothing and returns its parameter block (handle 0). -/
def sampleMods : List (Nat × ModuleCode) :=
  [(7, { acts := [ModuleAct.createBlock DAG_CBOR [9]], ret_block := 1 }),
   (ACCOUNT_ACTOR_CODE_ID, { acts := [], ret_block := 0 })]

/-- A concrete call manager for witnesses: gas limit 1000, nothing used. -/
def sampleCM : InnerCallManager :=
  { machine := { state_tree := sampleTree, price_list := samplePL, modules := sampleMods }
    gas_tracker := { gas_limit := 1000, gas_used := 0 }
    invocations := [] }

/-- The sample manager after the first send to the key address `bls 42`
created its account actor: actor 200 exists with the account code, the
address is indexed, 10 + 1 gas units were consumed (creation plus the
constructor invocation) and the constructor invocation was logged. -/
def sampleCreated : InnerCallManager :=
  { machine :=
      { state_tree :=
          { actors := [(100, { code := 7, state_root := 0, sequence := 0, balance := 50 }),
                       (0, { code := 9, state_root := 0, sequence := 0, balance := 500 }),
                       (200, ZERO_STATE)],
            index := [(Address.bls 42, 200)],
            next_id := 201 },
        price_list := samplePL,
        modules := sampleMods },
    gas_tracker := { gas_limit := 1000, gas_used := 11 },
    invocations := [(SYSTEM_ACTOR_ID, 200, METHOD_CONSTRUCTOR)] }

/-! ## Gas tracker lemmas -/

theorem GasTracker.charge_gas_fail (g : GasTracker) (a : Int)
    (h : g.gas_limit < g.gas_used + a) : g.charge_gas a = .error .OutOfGas := by
  simp [GasTracker.charge_gas, h]

theorem GasTracker.charge_gas_ok (g : GasTracker) (a : Int)
    (h : g.gas_used + a ≤ g.gas_limit) :
    g.charge_gas a = .ok { g with gas_used := g.gas_used + a } := by
  simp [GasTracker.charge_gas, not_lt.mpr h]

theorem GasTracker.charge_step_limit (g : GasTracker) (a : Int) :
    (g.charge_step a).gas_limit = g.gas_limit := by
  unfold GasTracker.charge_step GasTracker.charge_gas
  by_cases hc : g.gas_limit < g.gas_used + a <;> simp [hc]

theorem GasTracker.charge_step_le (g : GasTracker) (a : Int)
    (h : g.gas_used ≤ g.gas_limit) : (g.charge_step a).gas_used ≤ g.gas_limit := by
  unfold GasTracker.charge_step GasTracker.charge_gas
  by_cases hc : g.gas_limit < g.gas_used + a
  · simpa [hc] using h
  · simp [hc]
    omega

theorem GasTracker.charge_step_mono (g : GasTracker) (a : Int) (h : 0 ≤ a) :
    g.gas_used ≤ (g.charge_step a).gas_used := by
  unfold GasTracker.charge_step GasTracker.charge_gas
  by_cases hc : g.gas_limit < g.gas_used + a
  · simp [hc]
  · simp [hc]
    omega

theorem GasTracker.charge_seq_limit (amounts : List Int) :
    ∀ g : GasTracker, (g.charge_seq amounts).gas_limit = g.gas_limit := by
  induction amounts with
  | nil => intro g; rfl
  | cons a rest ih =>
    intro g
    have : g.charge_seq (a :: rest) = (g.charge_step a).charge_seq rest := rfl
    rw [this, ih, GasTracker.charge_step_limit]

theorem GasTracker.charge_seq_le (amounts : List Int) :
    ∀ g : GasTracker, g.gas_used ≤ g.gas_limit →
      (g.charge_seq amounts).gas_used ≤ g.gas_limit := by
  induction amounts with
  | nil => intro g h; exact h
  | cons a rest ih =>
    intro g h
    have heq : g.charge_seq (a :: rest) = (g.charge_step a).charge_seq rest := rfl
    rw [heq]
    have h1 := GasTracker.charge_step_le g a h
    have h2 := GasTracker.charge_step_limit g a
    have := ih (g.charge_step a) (by omega)
    omega

theorem GasTracker.charge_seq_mono (amounts : List Int) :
    ∀ g : GasTracker, (∀ a ∈ amounts, 0 ≤ a) →
      g.gas_used ≤ (g.charge_seq amounts).gas_used := by
  induction amounts with
  | nil => intro g _; exact le_refl _
  | cons a rest ih =>
    intro g h
    have heq : g.charge_seq (a :: rest) = (g.charge_step a).charge_seq rest := rfl
    rw [heq]
    have h1 := GasTracker.charge_step_mono g a (h a (by simp))
    have h2 := ih (g.charge_step a) (fun b hb => h b (by simp [hb]))
    omega

/-- C2: for every sequence of gas charges against one tracker, `used` never
exceeds `limit` at any observable point (every intermediate tracker is itself
of the form `charge_seq` of a prefix, so the first conjunct covers all of
them); a charge with `used + amount > limit` fails with `OutOfGas` and leaves
`used` unchanged (the rejected tracker is not replaced); a successful charge
adds the amount; and over nonnegative amounts `used` never decreases (gas is
never refunded mid-execution). -/
theorem gasTracker_used_bounded (g : GasTracker) (hg : g.gas_used ≤ g.gas_limit) :
    (∀ amounts : List Int,
        (g.charge_seq amounts).gas_used ≤ (g.charge_seq amounts).gas_limit
        ∧ (g.charge_seq amounts).gas_limit = g.gas_limit)
    ∧ (∀ a : Int, g.gas_limit < g.gas_used + a →
        g.charge_gas a = .error .OutOfGas ∧ g.charge_step a = g)
    ∧ (∀ a : Int, g.gas_used + a ≤ g.gas_limit →
        g.charge_gas a = .ok { g with gas_used := g.gas_used + a })
    ∧ (∀ amounts : List Int, (∀ a ∈ amounts, 0 ≤ a) →
        g.gas_used ≤ (g.charge_seq amounts).gas_used) := by
  refine ⟨fun amounts => ?_, fun a ha => ?_, fun a ha => ?_, fun amounts ha => ?_⟩
  · rw [GasTracker.charge_seq_limit]
    exact ⟨GasTracker.charge_seq_le amounts g hg, rfl⟩
  · refine ⟨GasTracker.charge_gas_fail g a ha, ?_⟩
    unfold GasTracker.charge_step
    rw [GasTracker.charge_gas_fail g a ha]
  · exact GasTracker.charge_gas_ok g a ha
  · exact GasTracker.charge_seq_mono amounts g ha

/-! ## Sector map lemmas -/

theorem aupdate_aupdate_same {κ α : Type} [DecidableEq κ] (l : List (κ × α)) (k : κ) (v w : α) :
    aupdate (aupdate l k v) k w = aupdate l k w := by
  induction l with
  | nil => simp [aupdate]
  | cons hd tl ih =>
    obtain ⟨k', v'⟩ := hd
    by_cases h : k' = k
    · simp [aupdate, h]
    · simp [aupdate, h, ih]

/-- C9: a deadline index at or above `WPOST_PERIOD_DEADLINES` makes
`DeadlineSectorMap::add` (and hence `add_values`) fail and leaves the map
completely unchanged — no entry is created for that deadline; a deadline index
below the bound gets a (default-initialized) partition-map entry on first
use, so the deadline is present in the map after the add. -/
theorem deadlineSectorMap_add_deadline_bound (m : DeadlineSectorMap)
    (deadline_idx partition_idx : Nat) (v : UnvalidatedBitField) (sectors : List Nat) :
    (WPOST_PERIOD_DEADLINES ≤ deadline_idx →
        m.add deadline_idx partition_idx v = (.error "invalid deadline", m)
        ∧ m.add_values deadline_idx partition_idx sectors = (.error "invalid deadline", m))
    ∧ (deadline_idx < WPOST_PERIOD_DEADLINES →
        ∃ pm, alookup (m.add deadline_idx partition_idx v).2 deadline_idx = some pm) := by
  constructor
  · intro h
    constructor
    · simp [DeadlineSectorMap.add, h]
    · simp [DeadlineSectorMap.add_values, DeadlineSectorMap.add, h]
  · intro h
    simp only [DeadlineSectorMap.add, if_neg (not_le.mpr h)]
    exact ⟨_, alookup_aupdate_self _ _ _⟩

/-- Witness for C9: a concrete rejected add at deadline 48 and a concrete
accepted add at deadline 3 creating the entry. -/
theorem deadlineSectorMap_add_deadline_bound_witness :
    DeadlineSectorMap.add ([] : DeadlineSectorMap) 48 0 (.validated {1})
      = (.error "invalid deadline", ([] : DeadlineSectorMap))
    ∧ ∃ pm, alookup (DeadlineSectorMap.add ([] : DeadlineSectorMap) 3 0 (.validated {1})).2 3
        = some pm := by
  constructor
  · exact ((deadlineSectorMap_add_deadline_bound [] 48 0 (.validated {1}) []).1
      (by decide)).1
  · exact (deadlineSectorMap_add_deadline_bound [] 3 0 (.validated {1}) []).2 (by decide)

theorem UnvalidatedBitField.validate_mut_of_validate (u : UnvalidatedBitField) (t : Finset Nat)
    (h : u.validate = .ok t) : u.validate_mut = (.ok t, .validated t) := by
  cases u <;> simp_all [UnvalidatedBitField.validate, UnvalidatedBitField.validate_mut]

/-- C10: `PartitionSectorMap::add` merges by set union — adding a valid
bitfield at a partition index that already holds a valid bitfield replaces
the stored field with the union of old and new — and it is idempotent on
valid input: adding the same validated sector set twice leaves exactly the
map produced by the first add, so `count` is unchanged by the repeated
add. -/
theorem partitionSectorMap_add_union_idempotent (m m1 : PartitionSectorMap) (p : Nat)
    (s : Finset Nat) (h : m.add p (.validated s) = (.ok (), m1)) :
    m1.add p (.validated s) = (.ok (), m1)
    ∧ ((m1.add p (.validated s)).2).count = m1.count
    ∧ (∀ old t, alookup m p = some old → old.validate = .ok t →
        alookup m1 p = some (.validated (t ∪ s))) := by
  obtain ⟨u, hm1, hus, hold⟩ :
      ∃ u, m1 = aupdate m p (.validated u) ∧ u ∪ s = u ∧
        (∀ old t, alookup m p = some old → old.validate = .ok t → u = t ∪ s) := by
    cases hl : alookup m p with
    | none =>
      refine ⟨s, ?_, Finset.union_self s, fun old t ho _ => by simp at ho⟩
      simp only [PartitionSectorMap.add, hl] at h
      exact (Prod.mk.injEq _ _ _ _ ▸ h).2.symm
    | some old =>
      cases hv : old.validate with
      | error e =>
        exfalso
        have hmut : old.validate_mut = (.error e, old) := by
          cases old <;> simp_all [UnvalidatedBitField.validate, UnvalidatedBitField.validate_mut]
        simp only [PartitionSectorMap.add, hl, hmut] at h
        cases h
      | ok t =>
        have hmut := UnvalidatedBitField.validate_mut_of_validate old t hv
        refine ⟨t ∪ s, ?_, by rw [Finset.union_assoc, Finset.union_self],
          fun old' t' ho' hv' => ?_⟩
        · simp only [PartitionSectorMap.add, hl, hmut, UnvalidatedBitField.validate] at h
          exact (Prod.mk.injEq _ _ _ _ ▸ h).2.symm
        · obtain rfl : old' = old := (Option.some_inj.mp ho').symm
          rw [hv] at hv'
          rw [Except.ok.injEq] at hv'
          rw [hv']
  have hu1 : alookup m1 p = some (.validated u) := by
    rw [hm1]; exact alookup_aupdate_self _ _ _
  have hsecond : m1.add p (.validated s) = (.ok (), m1) := by
    unfold PartitionSectorMap.add
    rw [hu1]
    simp only [UnvalidatedBitField.validate_mut, UnvalidatedBitField.validate]
    rw [hus, hm1, aupdate_aupdate_same]
  refine ⟨hsecond, by rw [hsecond], fun old t ho hv => ?_⟩
  rw [hu1, hold old t ho hv]

/-- Witness for C10 at a concrete partition map: the partition already holds
the set `{1, 2}` and `{2, 3}` is added twice; the second add returns exactly
the map the first add produced. -/
theorem partitionSectorMap_add_union_idempotent_witness :
    PartitionSectorMap.add [(5, UnvalidatedBitField.validated ({1, 2} ∪ {2, 3}))] 5
        (.validated {2, 3})
      = (.ok (), [(5, UnvalidatedBitField.validated ({1, 2} ∪ {2, 3}))])
    ∧ alookup ([(5, UnvalidatedBitField.validated ({1, 2} ∪ {2, 3}))] :
        List (Nat × UnvalidatedBitField)) 5
      = some (.validated ({1, 2} ∪ {2, 3})) := by
  have h0 : PartitionSectorMap.add [(5, UnvalidatedBitField.validated {1, 2})] 5
      (.validated {2, 3})
      = (.ok (), [(5, UnvalidatedBitField.validated ({1, 2} ∪ {2, 3}))]) := rfl
  have h := partitionSectorMap_add_union_idempotent
    [(5, UnvalidatedBitField.validated {1, 2})]
    [(5, UnvalidatedBitField.validated ({1, 2} ∪ {2, 3}))] 5 {2, 3} h0
  exact ⟨h.1, h.2.2 (UnvalidatedBitField.validated {1, 2}) {1, 2} rfl rfl⟩

/-- Witness for C2 at a concrete tracker and charge sequence. -/
theorem gasTracker_used_bounded_witness :
    (GasTracker.mk 10 0).gas_used ≤ (GasTracker.mk 10 0).gas_limit
    ∧ ((GasTracker.mk 10 0).charge_seq [4, 9, 5]).gas_used ≤ 10
    ∧ (GasTracker.mk 10 4).charge_gas 9 = .error .OutOfGas := by
  have h := gasTracker_used_bounded (GasTracker.mk 10 0) (by decide)
  refine ⟨by decide, ?_, ?_⟩
  · have h1 := (h.1 [4, 9, 5]).1
    have h2 := (h.1 [4, 9, 5]).2
    simpa [h2] using h1
  · have h' := gasTracker_used_bounded (GasTracker.mk 10 4) (by decide)
    exact (h'.2.1 9 (by decide)).1

/-! ## Call-manager invariants

`Evolves cm cm'` collects the facts preserved by every operation of the send
path: the gas limit never changes, the gas used never decreases (all charge
amounts are nonnegative and nothing refunds), and every address resolution
recorded in the state tree's index stays valid (entries are only ever added,
for addresses that were unresolved at the moment of creation). -/

theorem Evolves.rfl (cm : InnerCallManager) : Evolves cm cm :=
  ⟨Eq.refl _, le_refl _, fun _ _ h => h⟩

theorem Evolves.trans {cm1 cm2 cm3 : InnerCallManager} (h1 : Evolves cm1 cm2)
    (h2 : Evolves cm2 cm3) : Evolves cm1 cm3 :=
  ⟨h2.1.trans h1.1, h1.2.1.trans h2.2.1, fun a i h => h2.2.2 a i (h1.2.2 a i h)⟩

theorem lookup_id_of_index_eq {st st' : StateTree} (h : st'.index = st.index) (a : Address)
    (i : ActorID) (hl : st.lookup_id a = some i) : st'.lookup_id a = some i := by
  cases a <;> simp_all [StateTree.lookup_id]

theorem InnerCallManager.charge_gas_ok_shape (cm : InnerCallManager) (a : Nat)
    (cm' : InnerCallManager) (h : cm.charge_gas a = .ok cm') :
    cm' = { cm with gas_tracker :=
        ⟨cm.gas_tracker.gas_limit, cm.gas_tracker.gas_used + (a : Int)⟩ }
    ∧ cm.gas_tracker.gas_used + (a : Int) ≤ cm.gas_tracker.gas_limit := by
  unfold InnerCallManager.charge_gas GasTracker.charge_gas at h
  by_cases hc : cm.gas_tracker.gas_limit < cm.gas_tracker.gas_used + (a : Int)
  · simp [hc, Except.map] at h
  · simp only [hc, if_neg, if_false, Except.map] at h
    refine ⟨?_, by omega⟩
    cases h
    rfl

theorem InnerCallManager.charge_gas_error_shape (cm : InnerCallManager) (a : Nat)
    (e : ExecError) (h : cm.charge_gas a = .error e) :
    e = .OutOfGas ∧ cm.gas_tracker.gas_limit < cm.gas_tracker.gas_used + (a : Int) := by
  unfold InnerCallManager.charge_gas GasTracker.charge_gas at h
  by_cases hc : cm.gas_tracker.gas_limit < cm.gas_tracker.gas_used + (a : Int)
  · simp [hc, Except.map] at h
    exact ⟨h.symm, hc⟩
  · simp [hc, Except.map] at h

theorem evolves_of_charge {cm : InnerCallManager} {a : Nat} {cm' : InnerCallManager}
    (h : cm.charge_gas a = .ok cm') : Evolves cm cm' := by
  obtain ⟨rfl, hle⟩ := InnerCallManager.charge_gas_ok_shape cm a cm' h
  exact ⟨Eq.refl _, by simp, fun _ _ h => h⟩

theorem Machine.transfer_ok_shape {m : Machine} {frm dst : ActorID} {value : TokenAmount}
    {m' : Machine} (h : m.transfer frm dst value = .ok m') :
    m'.state_tree.index = m.state_tree.index
    ∧ m'.state_tree.next_id = m.state_tree.next_id
    ∧ m'.price_list = m.price_list
    ∧ m'.modules = m.modules := by
  unfold Machine.transfer at h
  cases hf : m.state_tree.get_actor_id frm with
  | none => rw [hf] at h; cases h
  | some f =>
    rw [hf] at h
    by_cases hb : f.balance < value
    · simp [hb] at h
    · simp only [hb, if_neg, if_false] at h
      cases ht : (m.state_tree.set_actor frm
          { f with balance := f.balance - value }).get_actor_id dst with
      | none => rw [ht] at h; cases h
      | some t =>
        rw [ht] at h
        cases h
        simp [StateTree.set_actor]

theorem evolves_of_transfer {cm : InnerCallManager} {frm dst : ActorID} {value : TokenAmount}
    {m' : Machine} (h : cm.machine.transfer frm dst value = .ok m') :
    Evolves cm { cm with machine := m' } := by
  refine ⟨Eq.refl _, le_refl _, fun a i hl => ?_⟩
  exact lookup_id_of_index_eq (Machine.transfer_ok_shape h).1 a i hl

theorem evolves_of_log (cm : InnerCallManager) (l : List (ActorID × ActorID × MethodNum)) :
    Evolves cm { cm with invocations := l } :=
  ⟨Eq.refl _, le_refl _, fun _ _ h => h⟩

theorem evolves_of_create {cm : InnerCallManager} {addr : Address}
    (hnone : cm.machine.state_tree.lookup_id addr = none) :
    Evolves cm { cm with machine := { cm.machine with
      state_tree := (cm.machine.state_tree.create_actor addr ZERO_STATE).2 } } := by
  refine ⟨Eq.refl _, le_refl _, fun a i hl => ?_⟩
  cases a with
  | id n => simpa [StateTree.lookup_id] using hl
  | secp k =>
    simp only [StateTree.lookup_id, StateTree.create_actor] at hl ⊢
    have hne : addr ≠ Address.secp k := by
      intro hcontra
      subst hcontra
      simp only [StateTree.lookup_id] at hnone
      rw [hnone] at hl
      cases hl
    rw [alookup_aupdate_other _ _ _ _ hne]
    exact hl
  | bls k =>
    simp only [StateTree.lookup_id, StateTree.create_actor] at hl ⊢
    have hne : addr ≠ Address.bls k := by
      intro hcontra
      subst hcontra
      simp only [StateTree.lookup_id] at hnone
      rw [hnone] at hl
      cases hl
    rw [alookup_aupdate_other _ _ _ _ hne]
    exact hl
  | other p x =>
    simp only [StateTree.lookup_id, StateTree.create_actor] at hl ⊢
    have hne : addr ≠ Address.other p x := by
      intro hcontra
      subst hcontra
      simp only [StateTree.lookup_id] at hnone
      rw [hnone] at hl
      cases hl
    rw [alookup_aupdate_other _ _ _ _ hne]
    exact hl

theorem invoke_result_snd (p : Except ExecError Unit × KernelState) (rb : Nat) :
    (invoke_result p rb).2 = p.2.cm := by
  unfold invoke_result
  split
  · rfl
  · split
    · rfl
    · rfl

/-- Unfolding of `InnerCallManager.send` at positive fuel (the or-pattern on
the address protocol defeats the automatic unfolding lemma). -/
theorem send_succ_unfold (fuel : Nat) (cm : InnerCallManager) (frm : ActorID) (dst : Address)
    (method : MethodNum) (params : List Nat) (value : TokenAmount) :
    InnerCallManager.send (fuel + 1) cm frm dst method params value =
      (match cm.machine.state_tree.lookup_id dst with
       | some toId => InnerCallManager.send_resolved fuel cm frm toId method params value
       | none =>
         match dst with
         | .bls _ | .secp _ =>
           (match InnerCallManager.create_account_actor fuel cm dst with
            | (.error e, cm') => (.error e, cm')
            | (.ok toId, cm') =>
              InnerCallManager.send_resolved fuel cm' frm toId method params value)
         | _ => (.error .InvalidReceiver, cm)) := rfl

/-- Every operation of the send path preserves the gas limit, never decreases
the gas used (all charges are nonnegative and nothing refunds), and keeps
every address already resolvable in the state tree resolvable to the same id,
at every fuel and for every module behavior. -/
theorem send_path_evolves (fuel : Nat) :
    (∀ cm frm dst method params value,
        Evolves cm (InnerCallManager.send fuel cm frm dst method params value).2)
    ∧ (∀ cm addr, cm.machine.state_tree.lookup_id addr = none →
        Evolves cm (InnerCallManager.create_account_actor fuel cm addr).2)
    ∧ (∀ cm frm toId method params value,
        Evolves cm (InnerCallManager.send_resolved fuel cm frm toId method params value).2)
    ∧ (∀ k acts, Evolves k.cm (exec_acts fuel k acts).2.cm) := by
  induction fuel with
  | zero =>
    exact ⟨fun cm _ _ _ _ _ => Evolves.rfl cm, fun cm _ _ => Evolves.rfl cm,
      fun cm _ _ _ _ _ => Evolves.rfl cm, fun k _ => Evolves.rfl k.cm⟩
  | succ fuel ih =>
    obtain ⟨ihs, ihc, ihr, ihe⟩ := ih
    have hsr : ∀ cm frm toId method params value,
        Evolves cm
          (InnerCallManager.send_resolved (fuel + 1) cm frm toId method params value).2 := by
      intro cm frm toId method params value
      unfold InnerCallManager.send_resolved
      split
      · exact Evolves.rfl cm
      · rename_i state hg
        split
        · exact Evolves.rfl cm
        · rename_i cm1 hch
          have h1 : Evolves cm cm1 := evolves_of_charge hch
          split
          · exact h1
          · rename_i cm2 htr
            have h2 : Evolves cm1 cm2 := by
              by_cases hv : value ≠ 0
              · rw [if_pos hv] at htr
                cases hmt : cm1.machine.transfer frm toId value with
                | error e => rw [hmt] at htr; cases htr
                | ok m' =>
                  rw [hmt] at htr
                  simp only [Except.map] at htr
                  cases htr
                  exact evolves_of_transfer hmt
              · rw [if_neg hv] at htr
                cases htr
                exact Evolves.rfl cm1
            split
            · exact h1.trans h2
            · split
              · exact h1.trans h2
              · rename_i modl hmod
                rw [invoke_result_snd]
                exact (h1.trans h2).trans
                  ((evolves_of_log cm2 (cm2.invocations ++ [(frm, toId, method)])).trans
                    (ihe (KernelState.block_create
                      ⟨{ cm2 with invocations := cm2.invocations ++ [(frm, toId, method)] },
                        [], toId⟩ DAG_CBOR params).2 modl.acts))
    have hca : ∀ cm addr, cm.machine.state_tree.lookup_id addr = none →
        Evolves cm (InnerCallManager.create_account_actor (fuel + 1) cm addr).2 := by
      intro cm addr hnone
      unfold InnerCallManager.create_account_actor
      split
      · exact Evolves.rfl cm
      · rename_i cm1 hch
        have h1 : Evolves cm cm1 := evolves_of_charge hch
        have hmach : cm1.machine = cm.machine := by
          rw [(InnerCallManager.charge_gas_ok_shape cm _ cm1 hch).1]
        split
        · exact h1
        · have hnone1 : cm1.machine.state_tree.lookup_id addr = none := by
            rw [hmach]; exact hnone
          exact h1.trans ((evolves_of_create hnone1).trans
            (ihr { cm1 with machine := { cm1.machine with
                state_tree := (cm1.machine.state_tree.create_actor addr ZERO_STATE).2 } }
              SYSTEM_ACTOR_ID (cm1.machine.state_tree.create_actor addr ZERO_STATE).1
              METHOD_CONSTRUCTOR (serializeAddress addr) 0))
    refine ⟨?_, hca, hsr, ?_⟩
    · intro cm frm dst method params value
      rw [send_succ_unfold]
      split
      · rename_i toId hl
        exact ihr cm frm toId method params value
      · rename_i hl
        split
        · rename_i key
          split
          · rename_i e cm' hcr
            have h1 := ihc cm (Address.bls key) hl
            rw [hcr] at h1
            exact h1
          · rename_i toId cm' hcr
            have h1 := ihc cm (Address.bls key) hl
            rw [hcr] at h1
            exact h1.trans (ihr cm' frm toId method params value)
        · rename_i key
          split
          · rename_i e cm' hcr
            have h1 := ihc cm (Address.secp key) hl
            rw [hcr] at h1
            exact h1
          · rename_i toId cm' hcr
            have h1 := ihc cm (Address.secp key) hl
            rw [hcr] at h1
            exact h1.trans (ihr cm' frm toId method params value)
        · exact Evolves.rfl cm
    · intro k acts
      unfold exec_acts
      split
      · exact Evolves.rfl k.cm
      · rename_i act rest
        split
        · rename_i amount
          split
          · exact Evolves.rfl k.cm
          · rename_i cm' hch
            exact (evolves_of_charge hch).trans (ihe { k with cm := cm' } rest)
        · rename_i dst method params value
          split
          · rename_i e cm' hs
            have h1 := ihs k.cm k.self_id dst method params value
            rw [hs] at h1
            exact h1
          · rename_i u cm' hs
            have h1 := ihs k.cm k.self_id dst method params value
            rw [hs] at h1
            exact h1.trans (ihe { k with cm := cm' } rest)
        · rename_i codec data
          exact ihe (KernelState.block_create k codec data).2 rest

/-- Unfolding of `InnerCallManager.send_resolved` at positive fuel. -/
theorem send_resolved_succ_unfold (fuel : Nat) (cm : InnerCallManager) (frm toId : ActorID)
    (method : MethodNum) (params : List Nat) (value : TokenAmount) :
    InnerCallManager.send_resolved (fuel + 1) cm frm toId method params value =
      (match cm.machine.state_tree.get_actor_id toId with
       | none => (.error .InvalidReceiver, cm)
       | some state =>
         match cm.charge_gas (cm.machine.price_list.on_method_invocation value method) with
         | .error e => (.error e, cm)
         | .ok cm1 =>
           match (if value ≠ 0 then
                    (cm1.machine.transfer frm toId value).map
                      (fun m => { cm1 with machine := m })
                  else .ok cm1) with
           | .error e => (.error e, cm1)
           | .ok cm2 =>
             if method = METHOD_SEND then (.ok [], cm2)
             else
               match alookup cm2.machine.modules state.code with
               | none => (.error .InvalidReceiver, cm2)
               | some modl =>
                 invoke_result
                   (exec_acts fuel
                     (KernelState.block_create
                       ⟨{ cm2 with invocations := cm2.invocations ++ [(frm, toId, method)] },
                         [], toId⟩ DAG_CBOR params).2
                     modl.acts)
                   modl.ret_block) := rfl

/-- C1: every invocation of the resolved send path that starts with the
presence slot in the "present" state ends with the slot "present" again,
whether the sandboxed invocation succeeds or returns an error (the result of
the inner pipeline is returned unchanged, and the manager the kernel hands
back is written into the slot before the result is produced); the restored
manager carries the same Machine/GasTracker pair evolved by the call: its gas
limit is intact and any gas consumed by the attempt, failed or not, remains
in `used`. -/
theorem sendResolved_presence_restored (fuel : Nat) (inner : InnerCallManager)
    (frm toId : ActorID) (method : MethodNum) (params : List Nat) (value : TokenAmount) :
    ∃ inner',
      CallManager.send_resolved fuel (some inner) frm toId method params value
        = ((InnerCallManager.send_resolved fuel inner frm toId method params value).1,
           some inner')
      ∧ inner'.gas_tracker.gas_limit = inner.gas_tracker.gas_limit
      ∧ inner.gas_tracker.gas_used ≤ inner'.gas_tracker.gas_used := by
  refine ⟨(InnerCallManager.send_resolved fuel inner frm toId method params value).2,
    rfl, ?_, ?_⟩
  · exact ((send_path_evolves fuel).2.2.1 inner frm toId method params value).1
  · exact ((send_path_evolves fuel).2.2.1 inner frm toId method params value).2.1


/-- C3: the stages of a resolved send happen in exactly the order: receiver
actor-state lookup, method-invocation charge (computed from `value` and
`method` by the price list), value transfer (only if `value` is non-zero),
code execution — each able to short-circuit with an error: (a) a failed
lookup returns `InvalidReceiver` with the manager untouched, before any gas
is charged and before any transfer; (b) an invocation charge that would
exceed the limit returns `OutOfGas` with the manager untouched — no transfer
and no execution happen; (c) a failing transfer happens after the invocation
charge: the propagated manager holds exactly the invocation charge and an
unchanged machine; (d) once the invocation charge has landed, every
continuation — transfer, early send return, or code execution — retains at
least that charge in `used`. -/
theorem sendResolved_stage_order (fuel : Nat) (cm : InnerCallManager) (frm toId : ActorID)
    (method : MethodNum) (params : List Nat) (value : TokenAmount) :
    (cm.machine.state_tree.get_actor_id toId = none →
      InnerCallManager.send_resolved (fuel + 1) cm frm toId method params value
        = (.error .InvalidReceiver, cm))
    ∧ (∀ state, cm.machine.state_tree.get_actor_id toId = some state →
        cm.gas_tracker.gas_limit < cm.gas_tracker.gas_used
            + (cm.machine.price_list.on_method_invocation value method : Int) →
        InnerCallManager.send_resolved (fuel + 1) cm frm toId method params value
          = (.error .OutOfGas, cm))
    ∧ (∀ state cm1 e, cm.machine.state_tree.get_actor_id toId = some state →
        cm.charge_gas (cm.machine.price_list.on_method_invocation value method) = .ok cm1 →
        value ≠ 0 →
        cm1.machine.transfer frm toId value = .error e →
        InnerCallManager.send_resolved (fuel + 1) cm frm toId method params value
            = (.error e, cm1)
        ∧ cm1.machine = cm.machine
        ∧ cm1.gas_tracker.gas_used = cm.gas_tracker.gas_used
            + (cm.machine.price_list.on_method_invocation value method : Int))
    ∧ (∀ state cm1, cm.machine.state_tree.get_actor_id toId = some state →
        cm.charge_gas (cm.machine.price_list.on_method_invocation value method) = .ok cm1 →
        cm.gas_tracker.gas_used
            + (cm.machine.price_list.on_method_invocation value method : Int)
          ≤ (InnerCallManager.send_resolved (fuel + 1) cm frm toId
              method params value).2.gas_tracker.gas_used) := by
  refine ⟨fun hg => ?_, fun state hg hover => ?_, fun state cm1 e hg hch hv htr => ?_,
    fun state cm1 hg hch => ?_⟩
  · rw [send_resolved_succ_unfold, hg]
  · have hch : cm.charge_gas (cm.machine.price_list.on_method_invocation value method)
        = .error .OutOfGas := by
      unfold InnerCallManager.charge_gas GasTracker.charge_gas
      rw [if_pos hover]
      rfl
    rw [send_resolved_succ_unfold, hg, hch]
  · obtain ⟨hsh, hle⟩ := InnerCallManager.charge_gas_ok_shape cm _ cm1 hch
    refine ⟨?_, by rw [hsh], by rw [hsh]⟩
    have hred : InnerCallManager.send_resolved (fuel + 1) cm frm toId method params value =
        (match (if value ≠ 0 then
                  (cm1.machine.transfer frm toId value).map
                    (fun m => { cm1 with machine := m })
                else .ok cm1) with
         | .error e => (.error e, cm1)
         | .ok cm2 =>
           if method = METHOD_SEND then (.ok [], cm2)
           else
             match alookup cm2.machine.modules state.code with
             | none => (.error .InvalidReceiver, cm2)
             | some modl =>
               invoke_result
                 (exec_acts fuel
                   (KernelState.block_create
                     ⟨{ cm2 with invocations := cm2.invocations ++ [(frm, toId, method)] },
                       [], toId⟩ DAG_CBOR params).2
                   modl.acts)
                 modl.ret_block) := by
      rw [send_resolved_succ_unfold, hg, hch]
    rw [hred, if_pos hv, htr]
    rfl
  · obtain ⟨hsh, hle⟩ := InnerCallManager.charge_gas_ok_shape cm _ cm1 hch
    have hused1 : cm1.gas_tracker.gas_used = cm.gas_tracker.gas_used
        + (cm.machine.price_list.on_method_invocation value method : Int) := by rw [hsh]
    have hred : InnerCallManager.send_resolved (fuel + 1) cm frm toId method params value =
        (match (if value ≠ 0 then
                  (cm1.machine.transfer frm toId value).map
                    (fun m => { cm1 with machine := m })
                else .ok cm1) with
         | .error e => (.error e, cm1)
         | .ok cm2 =>
           if method = METHOD_SEND then (.ok [], cm2)
           else
             match alookup cm2.machine.modules state.code with
             | none => (.error .InvalidReceiver, cm2)
             | some modl =>
               invoke_result
                 (exec_acts fuel
                   (KernelState.block_create
                     ⟨{ cm2 with invocations := cm2.invocations ++ [(frm, toId, method)] },
                       [], toId⟩ DAG_CBOR params).2
                   modl.acts)
                 modl.ret_block) := by
      rw [send_resolved_succ_unfold, hg, hch]
    rw [hred]
    split
    · rename_i e htr
      rw [hused1]
    · rename_i cm2 htr
      have hgas2 : cm2.gas_tracker = cm1.gas_tracker := by
        by_cases hv : value ≠ 0
        · rw [if_pos hv] at htr
          cases hmt : cm1.machine.transfer frm toId value with
          | error e => rw [hmt] at htr; cases htr
          | ok m' =>
            rw [hmt] at htr
            simp only [Except.map] at htr
            cases htr
            rfl
        · rw [if_neg hv] at htr
          cases htr
          rfl
      have hused2 : cm2.gas_tracker.gas_used = cm.gas_tracker.gas_used
          + (cm.machine.price_list.on_method_invocation value method : Int) := by
        rw [hgas2, hused1]
      split
      · rw [hused2]
      · split
        · rw [hused2]
        · rename_i modl hmod
          rw [invoke_result_snd]
          have he' : cm2.gas_tracker.gas_used ≤
              (exec_acts fuel
                (KernelState.block_create
                  ⟨{ cm2 with invocations := cm2.invocations ++ [(frm, toId, method)] },
                    [], toId⟩ DAG_CBOR params).2
                modl.acts).2.cm.gas_tracker.gas_used :=
            ((send_path_evolves fuel).2.2.2
              (KernelState.block_create
                ⟨{ cm2 with invocations := cm2.invocations ++ [(frm, toId, method)] },
                  [], toId⟩ DAG_CBOR params).2
              modl.acts).2.1
          rw [hused2] at he'
          exact he' 

/-- Witness for C3 at concrete inputs: a send to a missing actor fails with
`InvalidReceiver` and an untouched manager, and a transfer of 60 from an
actor holding 50 fails with `InsufficientFunds` while the invocation charge
(1 unit, charged before the transfer) is retained. -/
theorem sendResolved_stage_order_witness :
    InnerCallManager.send_resolved 5 sampleCM 0 55 3 [] 0 = (.error .InvalidReceiver, sampleCM)
    ∧ InnerCallManager.send_resolved 5 sampleCM 100 0 METHOD_SEND [] 60
        = (.error .InsufficientFunds, { sampleCM with gas_tracker := ⟨1000, 1⟩ }) := by
  constructor
  · exact (sendResolved_stage_order 4 sampleCM 0 55 3 [] 0).1 rfl
  · exact ((sendResolved_stage_order 4 sampleCM 100 0 METHOD_SEND [] 60).2.2.1
      { code := 9, state_root := 0, sequence := 0, balance := 500 }
      { sampleCM with gas_tracker := ⟨1000, 1⟩ } .InsufficientFunds
      rfl rfl (by decide) rfl).1

/-- Reduction of a resolved send past a successful actor lookup and a
successful invocation charge. -/
theorem send_resolved_after_charge (fuel : Nat) (cm : InnerCallManager) (frm toId : ActorID)
    (method : MethodNum) (params : List Nat) (value : TokenAmount)
    (state : ActorState) (cm1 : InnerCallManager)
    (hg : cm.machine.state_tree.get_actor_id toId = some state)
    (hch : cm.charge_gas (cm.machine.price_list.on_method_invocation value method)
        = .ok cm1) :
    InnerCallManager.send_resolved (fuel + 1) cm frm toId method params value =
      (match (if value ≠ 0 then
                (cm1.machine.transfer frm toId value).map
                  (fun m => { cm1 with machine := m })
              else .ok cm1) with
       | .error e => (.error e, cm1)
       | .ok cm2 =>
         if method = METHOD_SEND then (.ok [], cm2)
         else
           match alookup cm2.machine.modules state.code with
           | none => (.error .InvalidReceiver, cm2)
           | some modl =>
             invoke_result
               (exec_acts fuel
                 (KernelState.block_create
                   ⟨{ cm2 with invocations := cm2.invocations ++ [(frm, toId, method)] },
                     [], toId⟩ DAG_CBOR params).2
                 modl.acts)
               modl.ret_block) := by
  rw [send_resolved_succ_unfold, hg, hch]

/-- Unfolding of `InnerCallManager.create_account_actor` at positive fuel. -/
theorem create_account_actor_succ_unfold (fuel : Nat) (cm : InnerCallManager)
    (addr : Address) :
    InnerCallManager.create_account_actor (fuel + 1) cm addr =
      (match cm.charge_gas cm.machine.price_list.on_create_actor with
       | .error e => (.error e, cm)
       | .ok cm1 =>
         if addr.is_bls_zero_address then (.error .IllegalArgument, cm1)
         else
           ((InnerCallManager.send_resolved fuel
               { cm1 with machine := { cm1.machine with
                   state_tree := (cm1.machine.state_tree.create_actor addr ZERO_STATE).2 } }
               SYSTEM_ACTOR_ID (cm1.machine.state_tree.create_actor addr ZERO_STATE).1
               METHOD_CONSTRUCTOR (serializeAddress addr) 0).1.map
             (fun _ => (cm1.machine.state_tree.create_actor addr ZERO_STATE).1),
            (InnerCallManager.send_resolved fuel
               { cm1 with machine := { cm1.machine with
                   state_tree := (cm1.machine.state_tree.create_actor addr ZERO_STATE).2 } }
               SYSTEM_ACTOR_ID (cm1.machine.state_tree.create_actor addr ZERO_STATE).1
               METHOD_CONSTRUCTOR (serializeAddress addr) 0).2)) := rfl

/-- C7: account creation for the designated zero BLS key address charges the
create-actor gas cost first and then fails with `IllegalArgument`: no actor
state entry is created, no constructor is invoked (the machine and the ghost
invocation log are unchanged), and the charged creation gas is retained in
`used`. -/
theorem create_account_actor_zero_address (fuel : Nat) (cm : InnerCallManager)
    (addr : Address) (cm1 : InnerCallManager)
    (hz : addr.is_bls_zero_address = true)
    (hch : cm.charge_gas cm.machine.price_list.on_create_actor = .ok cm1) :
    InnerCallManager.create_account_actor (fuel + 1) cm addr = (.error .IllegalArgument, cm1)
    ∧ cm1.machine = cm.machine
    ∧ cm1.invocations = cm.invocations
    ∧ cm1.gas_tracker.gas_used = cm.gas_tracker.gas_used
        + (cm.machine.price_list.on_create_actor : Int) := by
  obtain ⟨hsh, hle⟩ := InnerCallManager.charge_gas_ok_shape cm _ cm1 hch
  refine ⟨?_, by rw [hsh], by rw [hsh], by rw [hsh]⟩
  rw [create_account_actor_succ_unfold, hch, hz]
  rfl

/-- Witness for C7: creating the zero BLS address from the sample manager
charges 10 gas and rejects with `IllegalArgument`, touching nothing else. -/
theorem create_account_actor_zero_address_witness :
    InnerCallManager.create_account_actor 5 sampleCM (Address.bls 0)
      = (.error .IllegalArgument, { sampleCM with gas_tracker := ⟨1000, 10⟩ }) :=
  (create_account_actor_zero_address 4 sampleCM (Address.bls 0)
    { sampleCM with gas_tracker := ⟨1000, 10⟩ } rfl rfl).1



/-- C5: a resolved send whose method is the reserved send method returns the
empty result immediately after the invocation charge and, for non-zero
value, the transfer: no module is looked up, no kernel is built, no code is
executed (the final state is exactly the charged — and possibly transferred —
manager, with the ghost invocation log unchanged), and with `value = 0` the
machine is untouched and exactly the invocation charge is consumed. -/
theorem sendResolved_method_send_no_exec (fuel : Nat) (cm : InnerCallManager)
    (frm toId : ActorID) (params : List Nat) (value : TokenAmount)
    (state : ActorState) (cm1 : InnerCallManager)
    (hg : cm.machine.state_tree.get_actor_id toId = some state)
    (hch : cm.charge_gas (cm.machine.price_list.on_method_invocation value METHOD_SEND)
        = .ok cm1) :
    (value = 0 →
      InnerCallManager.send_resolved (fuel + 1) cm frm toId METHOD_SEND params value
        = (.ok [], cm1)
      ∧ cm1.machine = cm.machine
      ∧ cm1.invocations = cm.invocations
      ∧ cm1.gas_tracker.gas_used = cm.gas_tracker.gas_used
          + (cm.machine.price_list.on_method_invocation value METHOD_SEND : Int))
    ∧ (∀ m', value ≠ 0 → cm1.machine.transfer frm toId value = .ok m' →
        InnerCallManager.send_resolved (fuel + 1) cm frm toId METHOD_SEND params value
          = (.ok [], { cm1 with machine := m' })
        ∧ cm1.invocations = cm.invocations) := by
  obtain ⟨hsh, hle⟩ := InnerCallManager.charge_gas_ok_shape cm _ cm1 hch
  constructor
  · intro hv
    refine ⟨?_, by rw [hsh], by rw [hsh], by rw [hsh]⟩
    rw [send_resolved_after_charge fuel cm frm toId METHOD_SEND params value state cm1 hg hch]
    subst hv
    rfl
  · intro m' hv htr
    refine ⟨?_, by rw [hsh]⟩
    rw [send_resolved_after_charge fuel cm frm toId METHOD_SEND params value state cm1 hg hch,
      if_pos hv, htr]
    rfl

/-- Witness for C5: a zero-value send-method call on the sample manager
returns the empty result with exactly the invocation charge consumed, and a
value-carrying one additionally moves the 20 tokens. -/
theorem sendResolved_method_send_no_exec_witness :
    InnerCallManager.send_resolved 5 sampleCM 0 100 METHOD_SEND [] 0
      = (.ok [], { sampleCM with gas_tracker := ⟨1000, 1⟩ })
    ∧ InnerCallManager.send_resolved 5 sampleCM 0 100 METHOD_SEND [] 20
      = (.ok [], { sampleCM with
          machine := { sampleCM.machine with state_tree :=
            { actors := [(100, { code := 7, state_root := 0, sequence := 0, balance := 70 }),
                         (0, { code := 9, state_root := 0, sequence := 0, balance := 480 })]
              index := []
              next_id := 200 } }
          gas_tracker := ⟨1000, 1⟩ }) := by
  constructor
  · exact ((sendResolved_method_send_no_exec 4 sampleCM 0 100 [] 0
      { code := 7, state_root := 0, sequence := 0, balance := 50 }
      { sampleCM with gas_tracker := ⟨1000, 1⟩ } rfl rfl).1 rfl).1
  · exact ((sendResolved_method_send_no_exec 4 sampleCM 0 100 [] 20
      { code := 7, state_root := 0, sequence := 0, balance := 50 }
      { sampleCM with gas_tracker := ⟨1000, 1⟩ } rfl rfl).2
      { sampleCM.machine with state_tree :=
          { actors := [(100, { code := 7, state_root := 0, sequence := 0, balance := 70 }),
                       (0, { code := 9, state_root := 0, sequence := 0, balance := 480 })]
            index := []
            next_id := 200 } }
      (by decide) rfl).1

/-- C6: the two resolution-failure cases of the send path, both failing with
`InvalidReceiver` and leaving the manager completely untouched — before any
invocation gas is charged and before any transfer: (i) an address absent
from the index whose protocol is neither BLS nor Secp256k1; (ii) an address
resolving to a numeric id (here: any indexed address, and every numeric
address, which resolves to itself) that has no actor state in the tree. -/
theorem send_invalid_receiver_cases (fuel : Nat) (cm : InnerCallManager) (frm : ActorID)
    (method : MethodNum) (params : List Nat) (value : TokenAmount) :
    (∀ p x, cm.machine.state_tree.lookup_id (Address.other p x) = none →
      InnerCallManager.send (fuel + 1) cm frm (Address.other p x) method params value
        = (.error .InvalidReceiver, cm))
    ∧ (∀ dst toId, cm.machine.state_tree.lookup_id dst = some toId →
        cm.machine.state_tree.get_actor_id toId = none →
        InnerCallManager.send (fuel + 2) cm frm dst method params value
          = (.error .InvalidReceiver, cm)) := by
  constructor
  · intro p x hl
    rw [send_succ_unfold, hl]
  · intro dst toId hl hg
    have hstep : InnerCallManager.send (fuel + 2) cm frm dst method params value
        = InnerCallManager.send_resolved (fuel + 1) cm frm toId method params value := by
      rw [send_succ_unfold, hl]
    rw [hstep, send_resolved_succ_unfold, hg]

/-- Witness for C6: a send to an unindexed actor-protocol address and a send
to the unoccupied numeric id 55, both from the sample manager, fail with
`InvalidReceiver` leaving it untouched. -/
theorem send_invalid_receiver_cases_witness :
    InnerCallManager.send 5 sampleCM 0 (Address.other 2 77) 3 [] 1
      = (.error .InvalidReceiver, sampleCM)
    ∧ InnerCallManager.send 5 sampleCM 0 (Address.id 55) 3 [] 1
      = (.error .InvalidReceiver, sampleCM) := by
  constructor
  · exact (send_invalid_receiver_cases 4 sampleCM 0 3 [] 1).1 2 77 rfl
  · exact (send_invalid_receiver_cases 3 sampleCM 0 3 [] 1).2 (Address.id 55) 55 rfl rfl

/-- C8: the round trip across the sandbox boundary. (a) The parameter block
registered in the fresh kernel before invocation reads back with exactly the
serialized parameter bytes and the DAG-CBOR codec tag — this is the block
whose handle is passed to the entry point. (b) When the entry point finishes
and returns a handle to a block carrying the DAG-CBOR codec (which is what
the debug assertion in the source states always happens), the caller
receives exactly that block's bytes as the result. -/
theorem sendResolved_block_round_trip (fuel : Nat) (cm : InnerCallManager)
    (frm toId : ActorID) (method : MethodNum) (params : List Nat) (value : TokenAmount)
    (state : ActorState) (cm1 cm2 : InnerCallManager) (modl : ModuleCode)
    (k2 : KernelState) (ret : List Nat)
    (hg : cm.machine.state_tree.get_actor_id toId = some state)
    (hch : cm.charge_gas (cm.machine.price_list.on_method_invocation value method)
        = .ok cm1)
    (htr : (if value ≠ 0 then
              (cm1.machine.transfer frm toId value).map
                (fun m => { cm1 with machine := m })
            else .ok cm1) = .ok cm2)
    (hm : method ≠ METHOD_SEND)
    (hmod : alookup cm2.machine.modules state.code = some modl)
    (hexec : exec_acts fuel
        (KernelState.block_create
          ⟨{ cm2 with invocations := cm2.invocations ++ [(frm, toId, method)] },
            [], toId⟩ DAG_CBOR params).2
        modl.acts = (.ok (), k2))
    (hret : k2.block_get modl.ret_block = .ok (DAG_CBOR, ret)) :
    (KernelState.block_create
        ⟨{ cm2 with invocations := cm2.invocations ++ [(frm, toId, method)] },
          [], toId⟩ DAG_CBOR params).2.block_get
      (KernelState.block_create
        ⟨{ cm2 with invocations := cm2.invocations ++ [(frm, toId, method)] },
          [], toId⟩ DAG_CBOR params).1
      = .ok (DAG_CBOR, params)
    ∧ InnerCallManager.send_resolved (fuel + 1) cm frm toId method params value
        = (.ok ret, k2.cm) := by
  constructor
  · rfl
  · rw [send_resolved_after_charge fuel cm frm toId method params value state cm1 hg hch,
      htr]
    have hred : (match (Except.ok cm2 : Except ExecError InnerCallManager) with
        | .error e => ((.error e : Except ExecError (List Nat)), cm1)
        | .ok cm2 =>
          if method = METHOD_SEND then (.ok [], cm2)
          else
            match alookup cm2.machine.modules state.code with
            | none => (.error .InvalidReceiver, cm2)
            | some modl =>
              invoke_result
                (exec_acts fuel
                  (KernelState.block_create
                    ⟨{ cm2 with invocations := cm2.invocations ++ [(frm, toId, method)] },
                      [], toId⟩ DAG_CBOR params).2
                  modl.acts)
                modl.ret_block)
        = (if method = METHOD_SEND then ((.ok [] : Except ExecError (List Nat)), cm2)
           else
             match alookup cm2.machine.modules state.code with
             | none => (.error .InvalidReceiver, cm2)
             | some modl =>
               invoke_result
                 (exec_acts fuel
                   (KernelState.block_create
                     ⟨{ cm2 with invocations := cm2.invocations ++ [(frm, toId, method)] },
                       [], toId⟩ DAG_CBOR params).2
                   modl.acts)
                 modl.ret_block) := rfl
    rw [hred, if_neg hm, hmod]
    have hred2 : (match (some modl : Option ModuleCode) with
        | none => ((.error .InvalidReceiver : Except ExecError (List Nat)), cm2)
        | some modl =>
          invoke_result
            (exec_acts fuel
              (KernelState.block_create
                ⟨{ cm2 with invocations := cm2.invocations ++ [(frm, toId, method)] },
                  [], toId⟩ DAG_CBOR params).2
              modl.acts)
            modl.ret_block)
        = invoke_result
            (exec_acts fuel
              (KernelState.block_create
                ⟨{ cm2 with invocations := cm2.invocations ++ [(frm, toId, method)] },
                  [], toId⟩ DAG_CBOR params).2
              modl.acts)
            modl.ret_block := rfl
    rw [hred2, hexec]
    simp only [invoke_result]
    rw [hret]

/-- Witness for C8: the sample actor 100 runs module 7, which creates the
DAG-CBOR block `[9]` and returns its handle; the caller receives exactly
`[9]`, and the parameter block `[1, 2]` reads back exactly. -/
theorem sendResolved_block_round_trip_witness :
    InnerCallManager.send_resolved 5 sampleCM 0 100 5 [1, 2] 0
      = (.ok [9],
         { machine := sampleCM.machine
           gas_tracker := ⟨1000, 1⟩
           invocations := [(0, 100, 5)] }) := by
  have h := (sendResolved_block_round_trip 4 sampleCM 0 100 5 [1, 2] 0
    { code := 7, state_root := 0, sequence := 0, balance := 50 }
    { sampleCM with gas_tracker := ⟨1000, 1⟩ }
    { sampleCM with gas_tracker := ⟨1000, 1⟩ }
    { acts := [ModuleAct.createBlock DAG_CBOR [9]], ret_block := 1 }
    ⟨{ machine := sampleCM.machine, gas_tracker := ⟨1000, 1⟩, invocations := [(0, 100, 5)] },
      [⟨DAG_CBOR, [1, 2]⟩, ⟨DAG_CBOR, [9]⟩], 100⟩
    [9]
    rfl rfl rfl (by decide) rfl rfl rfl).2
  exact h

/-- A module whose entry point performs no nested sends leaves the ghost
invocation log untouched: only reaching the code-execution stage of a
(nested) send appends to it. -/
theorem exec_acts_no_send_log (fuel : Nat) :
    ∀ (k : KernelState) (acts : List ModuleAct),
      (∀ act ∈ acts, ∀ dst method params value,
        act ≠ ModuleAct.sendMsg dst method params value) →
      (exec_acts fuel k acts).2.cm.invocations = k.cm.invocations := by
  induction fuel with
  | zero => intro k acts _; rfl
  | succ fuel ih =>
    intro k acts h
    unfold exec_acts
    split
    · rfl
    · rename_i act rest
      split
      · rename_i amount
        split
        · rfl
        · rename_i cm' hch
          have hinv : cm'.invocations = k.cm.invocations := by
            rw [(InnerCallManager.charge_gas_ok_shape k.cm _ cm' hch).1]
          rw [ih { k with cm := cm' } rest
            (fun a ha => h a (List.mem_cons_of_mem _ ha))]
          exact hinv
      · rename_i dst method params value
        exact absurd rfl (h _ (List.mem_cons_self _ _) dst method params value)
      · rename_i codec data
        exact ih (KernelState.block_create k codec data).2 rest
          (fun a ha => h a (List.mem_cons_of_mem _ ha))

/-- C4: address resolution is idempotent. For an address absent from the
index, a successful account creation — the path `send` takes for BLS and
Secp256k1 key addresses — (i) persists the new account actor: the address
then resolves to the returned id; (ii) makes any later send to the same
address a plain resolved send to that same id on the unchanged manager, so
the constructor is not run again; (iii) runs the constructor exactly once, as
a nested send from the system actor to the new id before the id is returned:
when the account module performs no nested sends of its own, the ghost
invocation log grows by exactly the one constructor entry. -/
theorem create_account_actor_idempotent (fuel : Nat) (cm cm' : InnerCallManager)
    (addr : Address) (aid : ActorID)
    (hnone : cm.machine.state_tree.lookup_id addr = none)
    (hok : InnerCallManager.create_account_actor (fuel + 1) cm addr = (.ok aid, cm')) :
    cm'.machine.state_tree.lookup_id addr = some aid
    ∧ (∀ fuel' frm method params value,
        InnerCallManager.send (fuel' + 1) cm' frm addr method params value
          = InnerCallManager.send_resolved fuel' cm' frm aid method params value)
    ∧ (∀ modl, alookup cm.machine.modules ACCOUNT_ACTOR_CODE_ID = some modl →
        (∀ act ∈ modl.acts, ∀ dst method params value,
          act ≠ ModuleAct.sendMsg dst method params value) →
        cm'.invocations = cm.invocations
          ++ [(SYSTEM_ACTOR_ID, aid, METHOD_CONSTRUCTOR)]) := by
  rw [create_account_actor_succ_unfold] at hok
  split at hok
  · simp at hok
  · rename_i cm1 hch
    obtain ⟨hsh1, hle1⟩ := InnerCallManager.charge_gas_ok_shape cm _ cm1 hch
    split at hok
    · simp at hok
    · rename_i hz
      rw [Prod.mk.injEq] at hok
      obtain ⟨h1, h2⟩ := hok
      cases hr : (InnerCallManager.send_resolved fuel
          { cm1 with machine := { cm1.machine with
              state_tree := (cm1.machine.state_tree.create_actor addr ZERO_STATE).2 } }
          SYSTEM_ACTOR_ID (cm1.machine.state_tree.create_actor addr ZERO_STATE).1
          METHOD_CONSTRUCTOR (serializeAddress addr) 0).1 with
      | error e =>
        rw [hr] at h1
        simp [Except.map] at h1
      | ok u =>
        rw [hr] at h1
        simp only [Except.map, Except.ok.injEq] at h1
        have hlk2 : { cm1 with machine := { cm1.machine with
            state_tree := (cm1.machine.state_tree.create_actor addr
              ZERO_STATE).2 } }.machine.state_tree.lookup_id addr
            = some (cm1.machine.state_tree.create_actor addr ZERO_STATE).1 := by
          cases addr with
          | id n => simp [StateTree.lookup_id] at hnone
          | bls k => exact alookup_aupdate_self _ _ _
          | secp k => exact alookup_aupdate_self _ _ _
          | other p x => exact alookup_aupdate_self _ _ _
        have hpers := ((send_path_evolves fuel).2.2.1
          { cm1 with machine := { cm1.machine with
              state_tree := (cm1.machine.state_tree.create_actor addr ZERO_STATE).2 } }
          SYSTEM_ACTOR_ID (cm1.machine.state_tree.create_actor addr ZERO_STATE).1
          METHOD_CONSTRUCTOR (serializeAddress addr) 0).2.2 addr
          (cm1.machine.state_tree.create_actor addr ZERO_STATE).1 hlk2
        rw [h2, h1] at hpers
        refine ⟨hpers, fun fuel' frm method params value => ?_,
          fun modl hmod hnosend => ?_⟩
        · rw [send_succ_unfold, hpers]
        · cases fuel with
          | zero =>
            rw [show InnerCallManager.send_resolved 0
                { cm1 with machine := { cm1.machine with
                    state_tree := (cm1.machine.state_tree.create_actor addr ZERO_STATE).2 } }
                SYSTEM_ACTOR_ID (cm1.machine.state_tree.create_actor addr ZERO_STATE).1
                METHOD_CONSTRUCTOR (serializeAddress addr) 0
                = ((.error .FuelExhausted : Except ExecError (List Nat)),
                   { cm1 with machine := { cm1.machine with
                       state_tree := (cm1.machine.state_tree.create_actor addr
                         ZERO_STATE).2 } }) from rfl] at hr
            simp at hr
          | succ f =>
            have hgA : { cm1 with machine := { cm1.machine with
                state_tree := (cm1.machine.state_tree.create_actor addr
                  ZERO_STATE).2 } }.machine.state_tree.get_actor_id
                (cm1.machine.state_tree.create_actor addr ZERO_STATE).1
                = some ZERO_STATE := alookup_aupdate_self _ _ _
            cases hchA : InnerCallManager.charge_gas
                { cm1 with machine := { cm1.machine with
                    state_tree := (cm1.machine.state_tree.create_actor addr ZERO_STATE).2 } }
                ({ cm1 with machine := { cm1.machine with
                    state_tree := (cm1.machine.state_tree.create_actor addr ZERO_STATE).2 }
                  }.machine.price_list.on_method_invocation 0 METHOD_CONSTRUCTOR) with
            | error e =>
              rw [send_resolved_succ_unfold, hgA, hchA] at hr
              simp at hr
            | ok cmA =>
              obtain ⟨hshA, hleA⟩ := InnerCallManager.charge_gas_ok_shape _ _ _ hchA
              have hmodsA : alookup cmA.machine.modules ZERO_STATE.code = some modl := by
                rw [hshA, hsh1]
                exact hmod
              have hstep1 : InnerCallManager.send_resolved (f + 1)
                  { cm1 with machine := { cm1.machine with
                      state_tree := (cm1.machine.state_tree.create_actor addr ZERO_STATE).2 } }
                  SYSTEM_ACTOR_ID (cm1.machine.state_tree.create_actor addr ZERO_STATE).1
                  METHOD_CONSTRUCTOR (serializeAddress addr) 0
                  = (match alookup cmA.machine.modules ZERO_STATE.code with
                     | none => (.error .InvalidReceiver, cmA)
                     | some modl =>
                       invoke_result
                         (exec_acts f
                           (KernelState.block_create
                             ⟨{ cmA with invocations := cmA.invocations
                                 ++ [(SYSTEM_ACTOR_ID,
                                      (cm1.machine.state_tree.create_actor addr
                                        ZERO_STATE).1,
                                      METHOD_CONSTRUCTOR)] },
                               [], (cm1.machine.state_tree.create_actor addr ZERO_STATE).1⟩
                             DAG_CBOR (serializeAddress addr)).2
                           modl.acts)
                         modl.ret_block) := by
                rw [send_resolved_succ_unfold, hgA, hchA]
                rfl
              have hstep2 : InnerCallManager.send_resolved (f + 1)
                  { cm1 with machine := { cm1.machine with
                      state_tree := (cm1.machine.state_tree.create_actor addr ZERO_STATE).2 } }
                  SYSTEM_ACTOR_ID (cm1.machine.state_tree.create_actor addr ZERO_STATE).1
                  METHOD_CONSTRUCTOR (serializeAddress addr) 0
                  = invoke_result
                      (exec_acts f
                        (KernelState.block_create
                          ⟨{ cmA with invocations := cmA.invocations
                              ++ [(SYSTEM_ACTOR_ID,
                                   (cm1.machine.state_tree.create_actor addr ZERO_STATE).1,
                                   METHOD_CONSTRUCTOR)] },
                            [], (cm1.machine.state_tree.create_actor addr ZERO_STATE).1⟩
                          DAG_CBOR (serializeAddress addr)).2
                        modl.acts)
                      modl.ret_block := by
                rw [hstep1, hmodsA]
              have hK : (exec_acts f
                  (KernelState.block_create
                    ⟨{ cmA with invocations := cmA.invocations
                        ++ [(SYSTEM_ACTOR_ID,
                             (cm1.machine.state_tree.create_actor addr ZERO_STATE).1,
                             METHOD_CONSTRUCTOR)] },
                      [], (cm1.machine.state_tree.create_actor addr ZERO_STATE).1⟩
                    DAG_CBOR (serializeAddress addr)).2
                  modl.acts).2.cm.invocations
                  = cmA.invocations
                    ++ [(SYSTEM_ACTOR_ID,
                         (cm1.machine.state_tree.create_actor addr ZERO_STATE).1,
                         METHOD_CONSTRUCTOR)] :=
                exec_acts_no_send_log f _ modl.acts hnosend
              have hinvA : cmA.invocations = cm.invocations := by
                rw [hshA, hsh1]
              rw [← h2, hstep2, invoke_result_snd, hK, hinvA, h1]

/-- Witness for C4: creating the account actor for `bls 42` from the sample
manager returns id 200; the address resolves to 200 afterwards, a second send
to it is a plain resolved send to 200, and the ghost log holds exactly the
one constructor invocation. -/
theorem create_account_actor_idempotent_witness :
    sampleCreated.machine.state_tree.lookup_id (Address.bls 42) = some 200
    ∧ InnerCallManager.send 7 sampleCreated 0 (Address.bls 42) 5 [] 0
        = InnerCallManager.send_resolved 6 sampleCreated 0 200 5 [] 0
    ∧ sampleCreated.invocations = sampleCM.invocations
        ++ [(SYSTEM_ACTOR_ID, 200, METHOD_CONSTRUCTOR)] := by
  have h := create_account_actor_idempotent 4 sampleCM sampleCreated (Address.bls 42) 200
    rfl rfl
  exact ⟨h.1, h.2.1 6 0 5 [] 0, h.2.2 { acts := [], ret_block := 0 } rfl
    (fun a ha => absurd ha (List.not_mem_nil a))⟩

end FVM
